import Mathlib

/-!
Shallow embedding of the daily-recap backend (`Backend/index.js`) of the
Slack recap bot, together with the frontend GitHub adapter
(`lib/github.ts`, `GitHubService`).

Conventions of the embedding:
* Timestamps are seconds since the epoch; `ts / 86400` is the calendar-day
  index of `ts` (the code formats dates with `toISOString`, i.e. UTC, for
  the store queries, and with `setHours(0,0,0,0)` local truncation in the
  collectors; the embedding works in one fixed timezone).
* JavaScript values that flow through untyped code (LLM responses, the
  argument of `normalizeSummary`) are modelled by the inductive `Js`.
* External calls (Supabase, Slack, GitHub, Google, OpenAI) are modelled by
  explicit oracle arguments of type `Except`/`Option`; a thrown error is an
  `Except.error`, a JS `null`/absent field is `none`.
-/

/-- JavaScript values, as needed to model the untyped data flowing through
`normalizeSummary` and the parsed LLM response in `summarizeActivity`. -/
inductive Js where
  | undef : Js
  | null : Js
  | bool : Bool → Js
  | num : Int → Js
  | str : String → Js
  | arr : List Js → Js
  | obj : List (String × Js) → Js

/-- JavaScript truthiness: `undefined`, `null`, `false`, `0` and `""` are
falsy, everything else (including empty arrays and objects) is truthy. -/
def jsTruthy : Js → Bool
  | .undef => false
  | .null => false
  | .bool b => b
  | .num n => n != 0
  | .str s => !s.isEmpty
  | .arr _ => true
  | .obj _ => true

/-- JavaScript `typeof`. -/
def jsTypeof : Js → String
  | .undef => "undefined"
  | .null => "object"
  | .bool _ => "boolean"
  | .num _ => "number"
  | .str _ => "string"
  | .arr _ => "object"
  | .obj _ => "object"

mutual
/-- JavaScript `String(v)` conversion (for the value shapes in `Js`):
booleans and numbers print, arrays join their elements with `","`
(`null`/`undefined` elements print as the empty string), plain objects
print as `"[object Object]"`. -/
def jsString : Js → String
  | .undef => "undefined"
  | .null => "null"
  | .bool true => "true"
  | .bool false => "false"
  | .num n => toString n
  | .str s => s
  | .arr xs => String.intercalate "," (jsStringElems xs)
  | .obj _ => "[object Object]"

/-- Element-wise stringification used by `Array.prototype.join`:
`null` and `undefined` become `""`. -/
def jsStringElems : List Js → List String
  | [] => []
  | .null :: xs => "" :: jsStringElems xs
  | .undef :: xs => "" :: jsStringElems xs
  | x :: xs => jsString x :: jsStringElems xs
end

/-- JavaScript property read `v.k` on a value that is not `null`/`undefined`:
objects look the key up (later duplicate keys shadow earlier ones, as after
`JSON.parse`), every other shape has no such property (`undefined`, i.e.
`none`). -/
def Js.getField : Js → String → Option Js
  | .obj fields, k => fields.reverse.lookup k
  | _, _ => none

/-- `String(v.k || "")`: the property read, defaulted to `""` when the
property is absent or falsy, then stringified. -/
def toStrField (v : Js) (k : String) : String :=
  match v.getField k with
  | some f => if jsTruthy f then jsString f else ""
  | none => ""

/-- Whether a character is trimmed by JavaScript `String.prototype.trim`
(restricted to the common ASCII whitespace characters). -/
def jsWhitespace (c : Char) : Bool :=
  c == ' ' || c == '\t' || c == '\n' || c == '\r'

/-- JavaScript `s.trim()`: strip leading and trailing whitespace. -/
def jsTrim (s : String) : String :=
  String.mk (((s.data.dropWhile jsWhitespace).reverse.dropWhile
    jsWhitespace).reverse)

/-- The `{progress, blockers, plan}` triple produced by the summarizer and
stored in a recap. -/
structure Summary where
  progress : String
  blockers : String
  plan : String
deriving Repr, DecidableEq

/-- `normalizeSummary(summary)` from `Backend/index.js`: any non-object or
falsy input collapses to three empty strings, otherwise each field is read,
defaulted to `""` when absent or falsy, stringified and trimmed. -/
def normalizeSummary (summary : Js) : Summary :=
  if !jsTruthy summary || jsTypeof summary != "object" then
    { progress := "", blockers := "", plan := "" }
  else
    { progress := jsTrim (toStrField summary "progress")
      blockers := jsTrim (toStrField summary "blockers")
      plan := jsTrim (toStrField summary "plan") }

/-- One row of the `daily_recaps` table. `notes = none` models SQL `NULL`. -/
structure Recap where
  id : Nat
  user_id : String
  team_id : String
  submitted_at : Nat
  progress : String
  blockers : String
  plan : String
  notes : Option String
  is_ai_generated : Bool
deriving Repr, DecidableEq

/-- The `daily_recaps` table plus the id sequence backing inserts. -/
structure Store where
  rows : List Recap
  nextId : Nat
deriving Repr, DecidableEq

/-- `getTodayDateString()` reduced to a day index: the UTC calendar day of a
timestamp (`toISOString().split('T')[0]`). -/
def utcDay (ts : Nat) : Nat := ts / 86400

/-- The store lookup window used by both `saveSummaryToSupabase` and
`loadSummaryFromSupabase`: `submitted_at >= ⟨day⟩T00:00:00Z` and
`submitted_at < ⟨day⟩T23:59:59Z`. -/
def inTodayWindow (day ts : Nat) : Bool :=
  day * 86400 ≤ ts && ts < day * 86400 + 86399

/-- The row filter of both recap lookups: equality on `user_id` and
`team_id`, and `submitted_at` inside the day window. -/
def recapKeyWindowMatch (uid tid : String) (day : Nat) (r : Recap) : Bool :=
  r.user_id == uid && r.team_id == tid && inTodayWindow day r.submitted_at

/-- The existence check of `saveSummaryToSupabase`: a filtered select ended
by `.single()`, whose `data` is non-null exactly when precisely one row
matches. -/
def findExistingSingle (uid tid : String) (day : Nat) (rows : List Recap) :
    Option Recap :=
  match rows.filter (recapKeyWindowMatch uid tid day) with
  | [r] => some r
  | _ => none

/-- The row with the greatest `submitted_at` of a list (first such row on
ties), modelling `order submitted_at desc` followed by `limit 1`. -/
def latestIn : List Recap → Option Recap
  | [] => none
  | r :: rs =>
    match latestIn rs with
    | none => some r
    | some r2 => if r2.submitted_at > r.submitted_at then some r2 else some r

/-- `loadSummaryFromSupabase`: the matching row of the day window with the
latest `submitted_at`, or `none` (the `PGRST116` soft-miss path). -/
def loadSummaryFromSupabase (uid tid : String) (day : Nat)
    (rows : List Recap) : Option Recap :=
  latestIn (rows.filter (recapKeyWindowMatch uid tid day))

/-- `saveSummaryToSupabase(userId, teamId, summary)` at wall-clock time
`now`. If exactly one row matches today's window it is updated in place:
`progress`/`blockers`/`plan` from the normalized summary,
`is_ai_generated := true`, and — because the existence query selects only
the `id` column — `existing.notes` is absent, so `existing.notes || null`
writes `null` into `notes`. Otherwise a fresh row is inserted with
`submitted_at := now`. -/
def saveSummaryToSupabase (st : Store) (now : Nat) (uid tid : String)
    (summary : Js) : Store :=
  let today := utcDay now
  let ns := normalizeSummary summary
  match findExistingSingle uid tid today st.rows with
  | some ex =>
    { st with rows := st.rows.map (fun r =>
        if r.id == ex.id then
          { r with
            progress := ns.progress
            blockers := ns.blockers
            plan := ns.plan
            notes := none
            is_ai_generated := true }
        else r) }
  | none =>
    { rows := st.rows ++ [{
        id := st.nextId
        user_id := uid
        team_id := tid
        submitted_at := now
        progress := ns.progress
        blockers := ns.blockers
        plan := ns.plan
        notes := none
        is_ai_generated := true }]
      nextId := st.nextId + 1 }

/-- The field values collected from the `recap_submit` modal. -/
structure RecapForm where
  progress : String
  blockers : String
  plan : String
  notes : Option String
deriving Repr, DecidableEq

/-- The `recap_submit` view handler: with a `recap_id` in the modal
metadata the row of that id is overwritten with the submitted fields and
`is_ai_generated := false`; without one a fresh row is inserted. -/
def recapSubmit (st : Store) (submittedAt : Nat) (uid tid : String)
    (recapId : Option Nat) (form : RecapForm) : Store :=
  match recapId with
  | some rid =>
    { st with rows := st.rows.map (fun r =>
        if r.id == rid then
          { r with
            user_id := uid
            team_id := tid
            submitted_at := submittedAt
            progress := form.progress
            blockers := form.blockers
            plan := form.plan
            notes := form.notes
            is_ai_generated := false }
        else r) }
  | none =>
    { rows := st.rows ++ [{
        id := st.nextId
        user_id := uid
        team_id := tid
        submitted_at := submittedAt
        progress := form.progress
        blockers := form.blockers
        plan := form.plan
        notes := form.notes
        is_ai_generated := false }]
      nextId := st.nextId + 1 }

/-- One store operation of the recap lifecycle for a fixed
`(user, team)`: an AI-draft save, or a user modal submission whose
`recap_id` metadata is obtained by `loadSummaryFromSupabase` at submission
time (modal opened and submitted without interleaving writes). -/
inductive RecapOp where
  | aiSave (now : Nat) (summary : Js)
  | userSubmit (now : Nat) (form : RecapForm)

/-- The wall-clock time of an operation. -/
def RecapOp.time : RecapOp → Nat
  | .aiSave now _ => now
  | .userSubmit now _ => now

/-- Run one operation against the store. -/
def applyRecapOp (uid tid : String) (st : Store) : RecapOp → Store
  | .aiSave now summary => saveSummaryToSupabase st now uid tid summary
  | .userSubmit now form =>
    recapSubmit st now uid tid
      ((loadSummaryFromSupabase uid tid (utcDay now) st.rows).map (·.id)) form

/-- Run a sequence of operations, oldest first. -/
def applyRecapOps (uid tid : String) (st : Store) : List RecapOp → Store
  | [] => st
  | op :: ops => applyRecapOps uid tid (applyRecapOp uid tid st op) ops

/-- Membership of a row in the `(user, team, UTC calendar day)` key, the
key the uniqueness contract speaks about. -/
def keyMatchDay (uid tid : String) (day : Nat) (r : Recap) : Bool :=
  r.user_id == uid && r.team_id == tid && utcDay r.submitted_at == day

/-- Number of rows of the store holding a recap for the key. -/
def dayRowCount (uid tid : String) (day : Nat) (rows : List Recap) : Nat :=
  rows.countP (keyMatchDay uid tid day)

/-- The `??`/`||`-style default on an optional string: absent or empty
strings fall back to the default (`x || d` with string `x`). -/
def jsOrStr (v : Option String) (fallback : String) : String :=
  match v with
  | some s => if s.isEmpty then fallback else s
  | none => fallback

/-- Local-midnight truncation, `date.setHours(0, 0, 0, 0)` on a timestamp
in seconds: the greatest midnight not after `ts` (`Int.emod` is
non-negative for the positive modulus, so this floors also before the
epoch). -/
def truncMidnight (ts : Int) : Int := ts - ts % 86400

/-- The two-day filter shared by the commit collector and the `/recap`
calendar filter: the item's timestamp truncated to midnight equals today's
truncation or yesterday's (`yesterday = today - 1 day`). -/
def commitInTwoDayWindow (now ts : Int) : Bool :=
  truncMidnight ts == truncMidnight now ||
    truncMidnight ts == truncMidnight now - 86400

/-- The start of a Google Calendar event: a timed start (`start.dateTime`)
or an all-day date (`start.date`, carried here as the timestamp its date
string parses to). -/
inductive EventStart where
  | dateTime (ts : Int)
  | date (ts : Int)
deriving Repr, DecidableEq

/-- A Google Calendar event as consumed by the backend: an optional title
and an optional start. -/
structure CalEvent where
  summary : Option String
  start : Option EventStart
deriving Repr, DecidableEq

/-- The `filteredCalendarEvents` predicate of the `/recap` handler: events
without any start are dropped, otherwise the start timestamp (the timed one
when present, else the all-day one) goes through the two-day truncation
filter. -/
def calendarEventInWindow (now : Int) (e : CalEvent) : Bool :=
  match e.start with
  | none => false
  | some (.dateTime ts) => commitInTwoDayWindow now ts
  | some (.date ts) => commitInTwoDayWindow now ts

/-- The `/recap` handler's calendar filtering step. -/
def filterCalendarEvents (now : Int) (events : List CalEvent) :
    List CalEvent :=
  events.filter (calendarEventInWindow now)

/-- A raw Slack message from `conversations.history`. -/
structure SlackMsg where
  text : Option String
  user : Option String
  ts : Int
  subtype : Option String
deriving Repr, DecidableEq

/-- A normalized Slack message as returned by `fetchUserSlackMessages`. -/
structure NormSlackMsg where
  text : String
  user : String
  ts : Int
deriving Repr, DecidableEq

/-- The `oldest` bound `fetchUserSlackMessages` passes to
`conversations.history`: a date one calendar day before `now`, with the
time of day kept (`yesterday.setDate(getDate() - 1)` on a non-truncated
`new Date()`), i.e. a rolling 24-hour lower bound. -/
def slackOldest (now : Int) : Int := now - 86400

/-- The Slack API semantics assumed for `conversations.history`: of the
channel's messages (newest first), those strictly newer than `oldest`,
capped at the requested `limit` of 100. -/
def conversationsHistory (channelMessages : List SlackMsg) (oldest : Int) :
    List SlackMsg :=
  (channelMessages.filter (fun m => oldest < m.ts)).take 100

/-- `fetchUserSlackMessages` after the `conversations.history` call, whose
outcome is the oracle argument: a thrown call error or an absent
`messages` field yields `[]`; otherwise messages are kept when they have no
`subtype` and their sender is the target user, and are normalized to
`{text, user, ts}`. -/
def fetchUserSlackMessages (slackUserId : String)
    (callResult : Except Unit (Option (List SlackMsg))) : List NormSlackMsg :=
  match callResult with
  | .error _ => []
  | .ok none => []
  | .ok (some msgs) =>
    (msgs.filter (fun m => m.subtype == none && m.user == some slackUserId)).map
      (fun m => { text := jsOrStr m.text ""
                  user := jsOrStr m.user "Unknown User"
                  ts := m.ts })

/-- A stored user connection, as far as the collectors read it. -/
structure Connection where
  github_token : Option String
  google_tokens : Option String
deriving Repr, DecidableEq

/-- A repository reference from `GET /user/repos`. -/
structure RepoRef where
  owner : String
  name : String
deriving Repr, DecidableEq

/-- One commit as delivered by the GitHub commits endpoint:
`author?.login`, `committer?.login`, and the nested
`commit.author.date`/`commit.message`. -/
structure RawCommit where
  authorLogin : Option String
  committerLogin : Option String
  authorDate : Int
  message : String
deriving Repr, DecidableEq

/-- A commit with the repository info spread onto it
(`{...commit, repo, owner}`). -/
structure CommitOut where
  commit : RawCommit
  repo : String
  owner : String
deriving Repr, DecidableEq

/-- The per-repository body of the commit loop: the user filter on
author/committer login, the two-day date filter, and the repo tagging. -/
def repoCommitsOut (userLogin : String) (now : Int) (repo : RepoRef)
    (cs : List RawCommit) : List CommitOut :=
  ((cs.filter (fun cm =>
      cm.authorLogin == some userLogin || cm.committerLogin == some userLogin)).filter
    (fun cm => commitInTwoDayWindow now cm.authorDate)).map
    (fun cm => { commit := cm, repo := repo.name, owner := repo.owner })

/-- The `for (const repo of reposToCheck)` loop: a failing per-repository
commit fetch is caught and skipped, a succeeding one contributes its
filtered, repo-tagged commits in order. -/
def collectAllCommits (getCommits : RepoRef → Except Unit (List RawCommit))
    (userLogin : String) (now : Int) : List RepoRef → List CommitOut
  | [] => []
  | repo :: rest =>
    match getCommits repo with
    | .error _ => collectAllCommits getCommits userLogin now rest
    | .ok cs =>
      repoCommitsOut userLogin now repo cs ++
        collectAllCommits getCommits userLogin now rest

/-- Insertion step of the final most-recent-first sort. -/
def insertByDateDesc (c : CommitOut) : List CommitOut → List CommitOut
  | [] => [c]
  | d :: ds =>
    if d.commit.authorDate ≥ c.commit.authorDate then
      d :: insertByDateDesc c ds
    else c :: d :: ds

/-- The `sort((a, b) => dateB - dateA)` over the gathered commits. -/
def sortByDateDesc : List CommitOut → List CommitOut
  | [] => []
  | c :: cs => insertByDateDesc c (sortByDateDesc cs)

/-- `fetchUserGitHubCommits(slackUserId, teamId)` with its external calls
as oracles: no connection or no GitHub token yields `[]`; a failing
`GET /user` or `GET /user/repos` is caught by the outer handler and yields
`[]`; otherwise the top 20 repositories are scanned with per-repository
failures skipped, and the result is sorted most recent first and capped at
50 commits. -/
def fetchUserGitHubCommits (conn : Option Connection)
    (getUser : Except Unit String)
    (getRepos : Except Unit (List RepoRef))
    (getCommits : RepoRef → Except Unit (List RawCommit))
    (now : Int) : List CommitOut :=
  match conn with
  | none => []
  | some c =>
    match c.github_token with
    | none => []
    | some _ =>
      match getUser with
      | .error _ => []
      | .ok userLogin =>
        match getRepos with
        | .error _ => []
        | .ok repos =>
          (sortByDateDesc
            (collectAllCommits getCommits userLogin now (repos.take 20))).take 50

/-- `fetchUserCalendarEvents` with the Google call as an oracle: no
connection or no Google tokens yields `[]`, a thrown call yields `[]`,
otherwise `res.data.items || []`. -/
def fetchUserCalendarEvents (conn : Option Connection)
    (listEvents : Except Unit (Option (List CalEvent))) : List CalEvent :=
  match conn with
  | none => []
  | some c =>
    match c.google_tokens with
    | none => []
    | some _ =>
      match listEvents with
      | .error _ => []
      | .ok items => items.getD []

/-- `GitHubService.getCommits` from the frontend `lib/github.ts`: the
response data on success; on failure the error is logged and rethrown to
the caller. -/
def gitHubServiceGetCommits
    (request : Except Unit (List RawCommit)) : Except Unit (List RawCommit) :=
  match request with
  | .ok data => .ok data
  | .error e => .error e

/-- JavaScript `s.toLowerCase()` on the ASCII range, written on the
character list so that concrete instances evaluate. -/
def jsToLower (s : String) : String := String.mk (s.data.map Char.toLower)

/-- A Slack workspace member as read by the reverse email lookup:
`{id, profile: {email}}`. -/
structure SlackMember where
  id : String
  email : Option String
deriving Repr, DecidableEq

/-- `getSlackUserIdFromEmail(email)` with the `users.list` call as an
oracle. An empty (falsy) email short-circuits to `null`; a thrown call is
caught to `null`; an absent `members` field makes the optional-chained
`find` yield `undefined`; otherwise the first member whose profile email
matches case-insensitively is taken and `user?.id || null` is returned. -/
def getSlackUserIdFromEmail (email : String)
    (listResult : Except Unit (Option (List SlackMember))) : Option String :=
  if email.isEmpty then none
  else
    match listResult with
    | .error _ => none
    | .ok members? =>
      match (members?.getD []).find?
          (fun u => u.email.map jsToLower == some (jsToLower email)) with
      | some u => if u.id.isEmpty then none else some u.id
      | none => none

/-- A commit item as `summarizeActivity` duck-types it: the GitHub API
shape carries `commit.message`, the Supabase shape a flat `message`, and
either may carry a `repo`. -/
structure ActivityCommit where
  commitMessage : Option String
  message : Option String
  repo : Option String
deriving Repr, DecidableEq

/-- One commit line of the prompt:
`- ${c.repo || "8090hacks"}: ${c.commit?.message || c.message || "No message"}`. -/
def formatCommitLine (c : ActivityCommit) : String :=
  "- " ++ jsOrStr c.repo "8090hacks" ++ ": " ++
    jsOrStr c.commitMessage (jsOrStr c.message "No message")

/-- The `commitList` text: the joined commit lines, or the fallback
`"No commits today."` when there are none. -/
def commitListStr (commits : List ActivityCommit) : String :=
  if commits.isEmpty then "No commits today."
  else String.intercalate "\n" (commits.map formatCommitLine)

/-- The `slackList` text: one `- ${m.text}` line per message. -/
def slackListStr (msgs : List NormSlackMsg) : String :=
  String.intercalate "\n" (msgs.map (fun m => "- " ++ m.text))

/-- One calendar line of the prompt. `Date.toLocaleString` depends on the
runtime locale and an all-day start is shown as its raw API date string, so
both renderings are taken as parameters of the embedding. -/
def formatCalendarLine (locale dateShow : Int → String) (e : CalEvent) :
    String :=
  let title := jsOrStr e.summary "Untitled event"
  let dateTime :=
    match e.start with
    | some (.dateTime ts) => locale ts
    | some (.date ts) => dateShow ts
    | none => "All day"
  "- " ++ title ++ " (" ++ dateTime ++ ")"

/-- The labeled prompt sections built by `summarizeActivity`: each
non-empty source pushes exactly one section, in the fixed order commits,
Slack activity, calendar. -/
def contextParts (locale dateShow : Int → String)
    (commits : List ActivityCommit) (slackMessages : List NormSlackMsg)
    (calendarEvents : List CalEvent) : List String :=
  (if !commits.isEmpty then
    ["Git commits:\n" ++ commitListStr commits] else []) ++
  (if !slackMessages.isEmpty then
    ["Recent Slack activity:\n" ++ slackListStr slackMessages] else []) ++
  (if !calendarEvents.isEmpty then
    ["Calendar events (today and yesterday):\n" ++
      String.intercalate "\n"
        (calendarEvents.map (formatCalendarLine locale dateShow))] else [])

/-- The user-role prompt sent to the chat-completion call. -/
def summarizePrompt (locale dateShow : Int → String)
    (commits : List ActivityCommit) (slackMessages : List NormSlackMsg)
    (calendarEvents : List CalEvent) : String :=
  "Here is today's activity:\n\n" ++
    String.intercalate "\n\n"
      (contextParts locale dateShow commits slackMessages calendarEvents)

/-- `summarizeActivity(commits, slackMessages, calendarEvents)` with the
chat-completion call as the oracle `llm` (mapping the user prompt to the
parsed JSON of the response, or `none` for a thrown call or unparsable
content). All three sources empty short-circuits to `null` before any
request. A parsed result of JSON `null` (or `undefined`) makes the field
accesses throw, which the `catch` turns into `null`. Otherwise each of the
three fields is read and coerced by `String(result.f || "")`. -/
def summarizeActivity (locale dateShow : Int → String)
    (llm : String → Option Js) (commits : List ActivityCommit)
    (slackMessages : List NormSlackMsg) (calendarEvents : List CalEvent) :
    Option Summary :=
  if commits.isEmpty && slackMessages.isEmpty && calendarEvents.isEmpty then
    none
  else
    match llm (summarizePrompt locale dateShow commits slackMessages
        calendarEvents) with
    | none => none
    | some .null => none
    | some .undef => none
    | some result =>
      some { progress := toStrField result "progress"
             blockers := toStrField result "blockers"
             plan := toStrField result "plan" }

/-- Well-formedness of the store's id column: ids are pairwise distinct and
below the id sequence value, so an update targeting one id touches exactly
one row and inserts get fresh ids. -/
def StoreIdsOk (st : Store) : Prop :=
  st.rows.Pairwise (fun a b => a.id ≠ b.id) ∧ ∀ r ∈ st.rows, r.id < st.nextId

/-- The state assumption of the uniqueness argument for a key: well-formed
ids, and every row of the key's UTC day actually lies inside the lookup
window (i.e. was not written during the day's final second, which the
window misses). -/
def GoodState (uid tid : String) (day : Nat) (st : Store) : Prop :=
  StoreIdsOk st ∧
    ∀ r ∈ st.rows, keyMatchDay uid tid day r = true →
      inTodayWindow day r.submitted_at = true

/-- An operation that happens on the given UTC day, strictly before the
day's final second 23:59:59. -/
def opInDayEarly (day : Nat) (op : RecapOp) : Prop :=
  utcDay op.time = day ∧ op.time % 86400 < 86399

theorem latestIn_mem {l : List Recap} {r : Recap} (h : latestIn l = some r) :
    r ∈ l := by
  induction l with
  | nil => simp [latestIn] at h
  | cons a as ih =>
    cases hl : latestIn as with
    | none =>
      simp only [latestIn, hl, Option.some.injEq] at h
      subst h
      exact List.mem_cons_self _ _
    | some r2 =>
      simp only [latestIn, hl] at h
      by_cases hgt : r2.submitted_at > a.submitted_at
      · rw [if_pos hgt] at h
        simp only [Option.some.injEq] at h
        subst h
        exact List.mem_cons_of_mem _ (ih hl)
      · rw [if_neg hgt] at h
        simp only [Option.some.injEq] at h
        subst h
        exact List.mem_cons_self _ _

theorem recapKeyWindowMatch_iff {uid tid : String} {day : Nat} {r : Recap} :
    recapKeyWindowMatch uid tid day r = true ↔
      r.user_id = uid ∧ r.team_id = tid ∧
        day * 86400 ≤ r.submitted_at ∧
          r.submitted_at < day * 86400 + 86399 := by
  simp [recapKeyWindowMatch, inTodayWindow, Bool.and_eq_true,
    decide_eq_true_eq, and_assoc]

theorem keyMatchDay_iff {uid tid : String} {day : Nat} {r : Recap} :
    keyMatchDay uid tid day r = true ↔
      r.user_id = uid ∧ r.team_id = tid ∧ utcDay r.submitted_at = day := by
  simp [keyMatchDay, Bool.and_eq_true, and_assoc]

theorem window_imp_day {day ts : Nat} (h : inTodayWindow day ts = true) :
    utcDay ts = day ∧ ts % 86400 < 86399 := by
  simp only [inTodayWindow, Bool.and_eq_true, decide_eq_true_eq] at h
  unfold utcDay
  omega

theorem day_early_imp_window {day ts : Nat} (h1 : utcDay ts = day)
    (h2 : ts % 86400 < 86399) : inTodayWindow day ts = true := by
  simp only [inTodayWindow, Bool.and_eq_true, decide_eq_true_eq]
  unfold utcDay at h1
  omega

theorem findExistingSingle_mem {uid tid : String} {day : Nat}
    {rows : List Recap} {r : Recap}
    (h : findExistingSingle uid tid day rows = some r) :
    r ∈ rows ∧ recapKeyWindowMatch uid tid day r = true := by
  unfold findExistingSingle at h
  split at h
  · rename_i x heq
    simp only [Option.some.injEq] at h
    subst h
    have hm : x ∈ rows.filter (recapKeyWindowMatch uid tid day) := by
      rw [heq]; exact List.mem_cons_self _ _
    exact ⟨(List.mem_filter.mp hm).1, (List.mem_filter.mp hm).2⟩
  · simp at h

theorem loadSummary_mem {uid tid : String} {day : Nat} {rows : List Recap}
    {r : Recap} (h : loadSummaryFromSupabase uid tid day rows = some r) :
    r ∈ rows ∧ recapKeyWindowMatch uid tid day r = true := by
  unfold loadSummaryFromSupabase at h
  have hm := latestIn_mem h
  exact ⟨(List.mem_filter.mp hm).1, (List.mem_filter.mp hm).2⟩

/-- Claim C9: the same-day recap lookup shared by `saveSummaryToSupabase`
and `loadSummaryFromSupabase` matches `submitted_at` in the half-open
window `[day 00:00:00Z, day 23:59:59Z)`, which lies inside the UTC day but
excludes its final second, so a recap submitted at or after 23:59:59 UTC is
never found as that day's recap and the window is not equivalent to
UTC-calendar-day equality. -/
theorem claim_C9_lookup_window :
    (∀ day ts : Nat, inTodayWindow day ts = true →
      utcDay ts = day ∧ ts % 86400 < 86399) ∧
    (∀ day ts : Nat, utcDay ts = day → ts % 86400 < 86399 →
      inTodayWindow day ts = true) ∧
    (∀ ts : Nat, ts % 86400 = 86399 → inTodayWindow (utcDay ts) ts = false) ∧
    (∀ (uid tid : String) (day : Nat) (rows : List Recap) (r : Recap),
      loadSummaryFromSupabase uid tid day rows = some r →
        utcDay r.submitted_at = day ∧ r.submitted_at % 86400 < 86399) ∧
    (∀ (uid tid : String) (day : Nat) (rows : List Recap) (r : Recap),
      findExistingSingle uid tid day rows = some r →
        utcDay r.submitted_at = day ∧ r.submitted_at % 86400 < 86399) ∧
    ¬(∀ day ts : Nat, inTodayWindow day ts = true ↔ utcDay ts = day) := by
  refine ⟨fun day ts h => window_imp_day h, fun day ts h1 h2 =>
    day_early_imp_window h1 h2, ?_, ?_, ?_, ?_⟩
  · intro ts h
    cases hb : inTodayWindow (utcDay ts) ts with
    | false => rfl
    | true => exact absurd (window_imp_day hb).2 (by omega)
  · intro uid tid day rows r h
    have h3 := (recapKeyWindowMatch_iff.mp (loadSummary_mem h).2).2.2
    unfold utcDay
    omega
  · intro uid tid day rows r h
    have h3 := (recapKeyWindowMatch_iff.mp (findExistingSingle_mem h).2).2.2
    unfold utcDay
    omega
  · intro h
    have h1 : inTodayWindow 0 86399 = true := (h 0 86399).mpr (by decide)
    exact absurd h1 (by decide)

theorem claim_C9_lookup_window_witness :
    (utcDay 3600 = 0 ∧ 3600 % 86400 < 86399) ∧
    inTodayWindow 0 3600 = true ∧
    inTodayWindow (utcDay 86399) 86399 = false ∧
    (utcDay 3600 = 0 ∧ 3600 % 86400 < 86399) := by
  refine ⟨claim_C9_lookup_window.1 0 3600 (by decide),
    claim_C9_lookup_window.2.1 0 3600 (by decide) (by decide),
    claim_C9_lookup_window.2.2.1 86399 (by decide),
    claim_C9_lookup_window.2.2.2.1 "U" "T" 0
      [{ id := 0, user_id := "U", team_id := "T", submitted_at := 3600,
         progress := "", blockers := "", plan := "", notes := none,
         is_ai_generated := true }]
      { id := 0, user_id := "U", team_id := "T", submitted_at := 3600,
        progress := "", blockers := "", plan := "", notes := none,
        is_ai_generated := true } (by decide)⟩

/-- Claim C10: `normalizeSummary` is total over arbitrary JavaScript
values — `null`, `undefined` and every non-object collapse to three empty
strings, and otherwise each of the exactly three fields is a trimmed
string, the empty string whenever the corresponding input field is missing
or falsy. -/
theorem claim_C10_normalizeSummary_total : ∀ v : Js,
    ((jsTruthy v = false ∨ jsTypeof v ≠ "object") →
      normalizeSummary v = { progress := "", blockers := "", plan := "" }) ∧
    (∃ p b q : String, normalizeSummary v =
      { progress := jsTrim p, blockers := jsTrim b, plan := jsTrim q }) ∧
    (v.getField "progress" = none → (normalizeSummary v).progress = "") ∧
    (∀ f, v.getField "progress" = some f → jsTruthy f = false →
      (normalizeSummary v).progress = "") ∧
    (v.getField "blockers" = none → (normalizeSummary v).blockers = "") ∧
    (v.getField "plan" = none → (normalizeSummary v).plan = "") := by
  intro v
  refine ⟨?_, ?_, ?_, ?_, ?_, ?_⟩
  · intro h
    cases h with
    | inl h => simp [normalizeSummary, h]
    | inr h =>
      have hg : (jsTypeof v != "object") = true := by
        simp only [bne_iff_ne, ne_eq]
        exact h
      simp [normalizeSummary, hg]
  · cases hg : (!jsTruthy v || jsTypeof v != "object") with
    | true =>
      refine ⟨"", "", "", ?_⟩
      simp only [normalizeSummary, hg, if_true]
      decide
    | false =>
      exact ⟨toStrField v "progress", toStrField v "blockers",
        toStrField v "plan", by simp [normalizeSummary, hg]⟩
  · intro h
    cases hg : (!jsTruthy v || jsTypeof v != "object") with
    | true => simp [normalizeSummary, hg]
    | false =>
      simp only [normalizeSummary, hg, Bool.false_eq_true, if_false,
        toStrField, h]
      decide
  · intro f hf htr
    cases hg : (!jsTruthy v || jsTypeof v != "object") with
    | true => simp [normalizeSummary, hg]
    | false =>
      simp only [normalizeSummary, hg, Bool.false_eq_true, if_false,
        toStrField, hf, htr]
      decide
  · intro h
    cases hg : (!jsTruthy v || jsTypeof v != "object") with
    | true => simp [normalizeSummary, hg]
    | false =>
      simp only [normalizeSummary, hg, Bool.false_eq_true, if_false,
        toStrField, h]
      decide
  · intro h
    cases hg : (!jsTruthy v || jsTypeof v != "object") with
    | true => simp [normalizeSummary, hg]
    | false =>
      simp only [normalizeSummary, hg, Bool.false_eq_true, if_false,
        toStrField, h]
      decide

theorem claim_C10_normalizeSummary_total_witness :
    normalizeSummary Js.null = { progress := "", blockers := "", plan := "" } ∧
    normalizeSummary (Js.num 7) = { progress := "", blockers := "", plan := "" } ∧
    (normalizeSummary (Js.obj [("plan", Js.str "x")])).progress = "" ∧
    (normalizeSummary (Js.obj [("progress", Js.str "")])).progress = "" := by
  refine ⟨(claim_C10_normalizeSummary_total Js.null).1 (Or.inl rfl),
    (claim_C10_normalizeSummary_total (Js.num 7)).1 (Or.inr (by decide)),
    (claim_C10_normalizeSummary_total (Js.obj [("plan", Js.str "x")])).2.2.1 rfl,
    (claim_C10_normalizeSummary_total
      (Js.obj [("progress", Js.str "")])).2.2.2.1 (Js.str "") rfl rfl⟩

/-- Claim C8: `getSlackUserIdFromEmail` returns the id of a workspace
member whose profile email matches the given email case-insensitively, and
returns `null` — never a thrown error — for an empty input email, a failed
`users.list` call, or when no member's email matches. -/
theorem claim_C8_email_lookup :
    ∀ (email : String) (listResult : Except Unit (Option (List SlackMember))),
    (email = "" → getSlackUserIdFromEmail email listResult = none) ∧
    (∀ e, listResult = .error e →
      getSlackUserIdFromEmail email listResult = none) ∧
    (∀ ms, listResult = .ok (some ms) →
      (∀ u ∈ ms, u.email.map jsToLower ≠ some (jsToLower email)) →
      getSlackUserIdFromEmail email listResult = none) ∧
    (∀ uid, getSlackUserIdFromEmail email listResult = some uid →
      ∃ ms u, listResult = .ok (some ms) ∧ u ∈ ms ∧ u.id = uid ∧
        u.email.map jsToLower = some (jsToLower email)) ∧
    (∀ ms u, listResult = .ok (some ms) → email ≠ "" →
      ms.find? (fun u => u.email.map jsToLower == some (jsToLower email)) =
        some u →
      u.id ≠ "" → getSlackUserIdFromEmail email listResult = some u.id) := by
  intro email listResult
  refine ⟨?_, ?_, ?_, ?_, ?_⟩
  · intro h
    subst h
    unfold getSlackUserIdFromEmail
    rw [if_pos (by decide)]
  · intro e h
    subst h
    simp [getSlackUserIdFromEmail]
  · intro ms h hnone
    subst h
    have hf : ms.find?
        (fun u => u.email.map jsToLower == some (jsToLower email)) = none := by
      rw [List.find?_eq_none]
      intro u hu
      simpa using hnone u hu
    by_cases he : email.isEmpty
    · simp [getSlackUserIdFromEmail, he]
    · simp [getSlackUserIdFromEmail, he, hf]
  · intro uid h
    unfold getSlackUserIdFromEmail at h
    split at h
    · simp at h
    · split at h
      · simp at h
      · rename_i members?
        split at h
        · rename_i u hfind
          split at h
          · simp at h
          · rename_i hid
            simp only [Option.some.injEq] at h
            subst h
            cases members? with
            | none => simp at hfind
            | some ms =>
              simp only [Option.getD_some] at hfind
              exact ⟨ms, u, rfl, List.mem_of_find?_eq_some hfind, rfl,
                by simpa using List.find?_some hfind⟩
        · simp at h
  · intro ms u h hne hf hid
    subst h
    have he : ¬email.isEmpty := by
      simpa [String.isEmpty_iff] using hne
    unfold getSlackUserIdFromEmail
    rw [if_neg he]
    simp only [Option.getD_some, hf]
    rw [if_neg (by simpa [String.isEmpty_iff] using hid)]

theorem claim_C8_email_lookup_witness :
    getSlackUserIdFromEmail ""
      (.ok (some [{ id := "U1", email := some "" }])) = none ∧
    getSlackUserIdFromEmail "dev@example.com" (.error ()) = none ∧
    getSlackUserIdFromEmail "dev@example.com"
      (.ok (some [{ id := "U1", email := some "other@example.com" }])) = none ∧
    getSlackUserIdFromEmail "Dev@Example.com"
      (.ok (some [{ id := "U1", email := some "dev@example.com" }])) =
      some "U1" := by
  refine ⟨(claim_C8_email_lookup "" _).1 rfl,
    (claim_C8_email_lookup "dev@example.com" _).2.1 () rfl,
    (claim_C8_email_lookup "dev@example.com" _).2.2.1 _ rfl (by decide),
    (claim_C8_email_lookup "Dev@Example.com" _).2.2.2.2
      [{ id := "U1", email := some "dev@example.com" }]
      { id := "U1", email := some "dev@example.com" }
      rfl (by decide) (by decide) (by decide)⟩

theorem toStrField_none {v : Js} {k : String} (h : v.getField k = none) :
    toStrField v k = "" := by
  simp [toStrField, h]

theorem toStrField_falsy {v f : Js} {k : String} (h : v.getField k = some f)
    (hf : jsTruthy f = false) : toStrField v k = "" := by
  simp [toStrField, h, hf]

theorem toStrField_truthy {v f : Js} {k : String} (h : v.getField k = some f)
    (hf : jsTruthy f = true) : toStrField v k = jsString f := by
  simp [toStrField, h, hf]

theorem summarizeActivity_some {locale dateShow : Int → String}
    {commits : List ActivityCommit} {msgs : List NormSlackMsg}
    {events : List CalEvent} {raw : Js}
    (hg : (commits.isEmpty && msgs.isEmpty && events.isEmpty) = false)
    (h1 : raw ≠ Js.null) (h2 : raw ≠ Js.undef) :
    summarizeActivity locale dateShow (fun _ => some raw) commits msgs events =
      some { progress := toStrField raw "progress"
             blockers := toStrField raw "blockers"
             plan := toStrField raw "plan" } := by
  unfold summarizeActivity
  rw [if_neg (by simp [hg])]
  cases raw with
  | null => exact absurd rfl h1
  | undef => exact absurd rfl h2
  | bool b => rfl
  | num n => rfl
  | str s => rfl
  | arr xs => rfl
  | obj fields => rfl

/-- Claim C5: `summarizeActivity` short-circuits to `null`, with no LLM
request issued (the result is `none` for every oracle), exactly when all
three input sequences are empty; otherwise each non-empty source
contributes its own labeled section to the prompt context and empty
sources leave no section behind. -/
theorem claim_C5_empty_guard :
    ∀ (locale dateShow : Int → String) (commits : List ActivityCommit)
      (msgs : List NormSlackMsg) (events : List CalEvent),
    ((commits.isEmpty && msgs.isEmpty && events.isEmpty) = true →
      ∀ llm, summarizeActivity locale dateShow llm commits msgs events =
        none) ∧
    ((commits.isEmpty && msgs.isEmpty && events.isEmpty) = false →
      (∀ raw : Js, raw ≠ Js.null → raw ≠ Js.undef →
        (summarizeActivity locale dateShow (fun _ => some raw) commits msgs
          events).isSome = true) ∧
      (contextParts locale dateShow commits msgs events).length =
        ((if commits.isEmpty then 0 else 1) +
          (if msgs.isEmpty then 0 else 1) +
          (if events.isEmpty then 0 else 1)) ∧
      (commits.isEmpty = false →
        ("Git commits:\n" ++ commitListStr commits) ∈
          contextParts locale dateShow commits msgs events) ∧
      (msgs.isEmpty = false →
        ("Recent Slack activity:\n" ++ slackListStr msgs) ∈
          contextParts locale dateShow commits msgs events) ∧
      (events.isEmpty = false →
        ("Calendar events (today and yesterday):\n" ++
            String.intercalate "\n"
              (events.map (formatCalendarLine locale dateShow))) ∈
          contextParts locale dateShow commits msgs events)) := by
  intro locale dateShow commits msgs events
  constructor
  · intro h llm
    simp [summarizeActivity, h]
  · intro h
    refine ⟨?_, ?_, ?_, ?_, ?_⟩
    · intro raw h1 h2
      rw [summarizeActivity_some h h1 h2]
      rfl
    · cases hc : commits.isEmpty <;> cases hm : msgs.isEmpty <;>
        cases he : events.isEmpty <;> simp [contextParts, hc, hm, he]
    · intro hc
      cases hm : msgs.isEmpty <;> cases he : events.isEmpty <;>
        simp [contextParts, hc, hm, he]
    · intro hm
      cases hc : commits.isEmpty <;> cases he : events.isEmpty <;>
        simp [contextParts, hc, hm, he]
    · intro he
      cases hc : commits.isEmpty <;> cases hm : msgs.isEmpty <;>
        simp [contextParts, hc, hm, he]

theorem claim_C5_empty_guard_witness :
    summarizeActivity (fun _ => "") (fun _ => "")
      (fun _ => some (Js.obj [("progress", Js.str "x")])) [] [] [] = none ∧
    (summarizeActivity (fun _ => "") (fun _ => "")
      (fun _ => some (Js.obj []))
      [{ commitMessage := some "fix parser", message := none,
         repo := some "repo1" }] [] []).isSome = true ∧
    ("Git commits:\n" ++ commitListStr
        [{ commitMessage := some "fix parser", message := none,
           repo := some "repo1" }]) ∈
      contextParts (fun _ => "") (fun _ => "")
        [{ commitMessage := some "fix parser", message := none,
           repo := some "repo1" }] [] [] := by
  refine ⟨(claim_C5_empty_guard (fun _ => "") (fun _ => "") [] [] []).1 rfl _,
    ((claim_C5_empty_guard (fun _ => "") (fun _ => "")
        [{ commitMessage := some "fix parser", message := none,
           repo := some "repo1" }] [] []).2 (by decide)).1
      (Js.obj []) (by simp) (by simp),
    ((claim_C5_empty_guard (fun _ => "") (fun _ => "")
        [{ commitMessage := some "fix parser", message := none,
           repo := some "repo1" }] [] []).2 (by decide)).2.2.1 (by decide)⟩

/-- Claim C6: whenever `summarizeActivity` returns a non-null result, the
result is exactly the `{progress, blockers, plan}` string triple, and each
field of an arbitrary upstream JSON value is coerced — absent or falsy
fields become `""`, truthy fields their JavaScript stringification — so no
upstream shape propagates a type error. -/
theorem claim_C6_schema_coercion :
    ∀ (locale dateShow : Int → String) (commits : List ActivityCommit)
      (msgs : List NormSlackMsg) (events : List CalEvent) (raw : Js),
    (commits.isEmpty && msgs.isEmpty && events.isEmpty) = false →
    raw ≠ Js.null → raw ≠ Js.undef →
    ∃ out : Summary,
      summarizeActivity locale dateShow (fun _ => some raw) commits msgs
        events = some out ∧
      (raw.getField "progress" = none → out.progress = "") ∧
      (∀ v, raw.getField "progress" = some v → jsTruthy v = false →
        out.progress = "") ∧
      (∀ v, raw.getField "progress" = some v → jsTruthy v = true →
        out.progress = jsString v) ∧
      (raw.getField "blockers" = none → out.blockers = "") ∧
      (∀ v, raw.getField "blockers" = some v → jsTruthy v = false →
        out.blockers = "") ∧
      (∀ v, raw.getField "blockers" = some v → jsTruthy v = true →
        out.blockers = jsString v) ∧
      (raw.getField "plan" = none → out.plan = "") ∧
      (∀ v, raw.getField "plan" = some v → jsTruthy v = false →
        out.plan = "") ∧
      (∀ v, raw.getField "plan" = some v → jsTruthy v = true →
        out.plan = jsString v) := by
  intro locale dateShow commits msgs events raw hg h1 h2
  refine ⟨_, summarizeActivity_some hg h1 h2, ?_, ?_, ?_, ?_, ?_, ?_, ?_, ?_,
    ?_⟩
  · intro h; exact toStrField_none h
  · intro v h hf; exact toStrField_falsy h hf
  · intro v h hf; exact toStrField_truthy h hf
  · intro h; exact toStrField_none h
  · intro v h hf; exact toStrField_falsy h hf
  · intro v h hf; exact toStrField_truthy h hf
  · intro h; exact toStrField_none h
  · intro v h hf; exact toStrField_falsy h hf
  · intro v h hf; exact toStrField_truthy h hf

theorem claim_C6_schema_coercion_witness :
    ∃ out : Summary,
      summarizeActivity (fun _ => "") (fun _ => "")
        (fun _ => some (Js.obj [("progress", Js.num 42),
          ("plan", Js.arr [Js.str "a", Js.str "b"])]))
        [{ commitMessage := some "fix parser", message := none,
           repo := some "repo1" }] [] [] = some out ∧
      ((Js.obj [("progress", Js.num 42),
          ("plan", Js.arr [Js.str "a", Js.str "b"])]).getField "progress" =
            none → out.progress = "") ∧
      (∀ v, (Js.obj [("progress", Js.num 42),
          ("plan", Js.arr [Js.str "a", Js.str "b"])]).getField "progress" =
            some v → jsTruthy v = false → out.progress = "") ∧
      (∀ v, (Js.obj [("progress", Js.num 42),
          ("plan", Js.arr [Js.str "a", Js.str "b"])]).getField "progress" =
            some v → jsTruthy v = true → out.progress = jsString v) ∧
      ((Js.obj [("progress", Js.num 42),
          ("plan", Js.arr [Js.str "a", Js.str "b"])]).getField "blockers" =
            none → out.blockers = "") ∧
      (∀ v, (Js.obj [("progress", Js.num 42),
          ("plan", Js.arr [Js.str "a", Js.str "b"])]).getField "blockers" =
            some v → jsTruthy v = false → out.blockers = "") ∧
      (∀ v, (Js.obj [("progress", Js.num 42),
          ("plan", Js.arr [Js.str "a", Js.str "b"])]).getField "blockers" =
            some v → jsTruthy v = true → out.blockers = jsString v) ∧
      ((Js.obj [("progress", Js.num 42),
          ("plan", Js.arr [Js.str "a", Js.str "b"])]).getField "plan" =
            none → out.plan = "") ∧
      (∀ v, (Js.obj [("progress", Js.num 42),
          ("plan", Js.arr [Js.str "a", Js.str "b"])]).getField "plan" =
            some v → jsTruthy v = false → out.plan = "") ∧
      (∀ v, (Js.obj [("progress", Js.num 42),
          ("plan", Js.arr [Js.str "a", Js.str "b"])]).getField "plan" =
            some v → jsTruthy v = true → out.plan = jsString v) :=
  claim_C6_schema_coercion (fun _ => "") (fun _ => "") _ _ _ _
    (by decide) (by simp) (by simp)

/-- Claim C4 as stated is false: the Slack collector does not use
midnight-truncation day equality. A message at 9:00 yesterday truncates to
yesterday's date, so the truncation filter the claim describes accepts it,
yet the collector pipeline run at 10:00 today — whose
`conversations.history` request carries the rolling bound
`oldest = now − 24h` — returns no messages. -/
theorem claim_C4_counterexample :
    commitInTwoDayWindow (10 * 86400 + 36000) (9 * 86400 + 32400) = true ∧
    fetchUserSlackMessages "U1"
      (.ok (some (conversationsHistory
        [{ text := some "standup notes", user := some "U1",
           ts := 9 * 86400 + 32400, subtype := none }]
        (slackOldest (10 * 86400 + 36000))))) = [] := by
  constructor
  · decide
  · decide

/-- Claim C4 (amended): the GitHub commit filter and the `/recap` calendar
filter are midnight-truncation filters — truncated-date equality with today
or yesterday, so 11:59pm yesterday and 12:01am today pass while 2 days ago
fails — but the Slack message collector instead bounds messages by the
rolling `oldest = now − 24h` passed to `conversations.history`: every
message it returns is strictly newer than `now − 24h`, and within the page
cap it returns exactly the user's subtype-free messages newer than that
rolling bound. -/
theorem claim_C4_amended :
    (∀ now ts : Int, commitInTwoDayWindow now ts = true ↔
      (ts / 86400 = now / 86400 ∨ ts / 86400 = now / 86400 - 1)) ∧
    (∀ d : Int, commitInTwoDayWindow (d * 86400 + 36000) (d * 86400 - 60) =
      true) ∧
    (∀ d : Int, commitInTwoDayWindow (d * 86400 + 36000) (d * 86400 + 60) =
      true) ∧
    (∀ d : Int, commitInTwoDayWindow (d * 86400 + 36000)
      (d * 86400 - 86460) = false) ∧
    (∀ (now ts : Int) (su : Option String),
      calendarEventInWindow now { summary := su, start := some (.dateTime ts) }
        = commitInTwoDayWindow now ts) ∧
    (∀ (now ts : Int) (su : Option String),
      calendarEventInWindow now { summary := su, start := some (.date ts) } =
        commitInTwoDayWindow now ts) ∧
    (∀ (now : Int) (su : Option String),
      calendarEventInWindow now { summary := su, start := none } = false) ∧
    (∀ (uid : String) (now : Int) (msgs : List SlackMsg) (m : NormSlackMsg),
      m ∈ fetchUserSlackMessages uid
        (.ok (some (conversationsHistory msgs (slackOldest now)))) →
      slackOldest now < m.ts) ∧
    (∀ (uid : String) (now : Int) (msgs : List SlackMsg),
      (msgs.filter (fun m => slackOldest now < m.ts)).length ≤ 100 →
      fetchUserSlackMessages uid
        (.ok (some (conversationsHistory msgs (slackOldest now)))) =
        ((msgs.filter (fun m => slackOldest now < m.ts)).filter
          (fun m => m.subtype == none && m.user == some uid)).map
          (fun m => { text := jsOrStr m.text ""
                      user := jsOrStr m.user "Unknown User"
                      ts := m.ts })) := by
  refine ⟨?_, ?_, ?_, ?_, ?_, ?_, ?_, ?_, ?_⟩
  · intro now ts
    simp only [commitInTwoDayWindow, truncMidnight, Bool.or_eq_true,
      beq_iff_eq]
    omega
  · intro d
    simp only [commitInTwoDayWindow, truncMidnight, Bool.or_eq_true,
      beq_iff_eq]
    omega
  · intro d
    simp only [commitInTwoDayWindow, truncMidnight, Bool.or_eq_true,
      beq_iff_eq]
    omega
  · intro d
    simp only [commitInTwoDayWindow, truncMidnight]
    rw [Bool.or_eq_false_iff]
    constructor <;> · rw [beq_eq_false_iff_ne]; intro h; omega
  · intro now ts su; rfl
  · intro now ts su; rfl
  · intro now su; rfl
  · intro uid now msgs m hm
    unfold fetchUserSlackMessages at hm
    rcases List.mem_map.mp hm with ⟨m0, hm0, hval⟩
    have h1 : m0 ∈ conversationsHistory msgs (slackOldest now) :=
      List.mem_of_mem_filter hm0
    have h2 : m0 ∈ msgs.filter (fun m => slackOldest now < m.ts) :=
      List.take_subset _ _ h1
    have h3 := List.of_mem_filter h2
    simp only [decide_eq_true_eq] at h3
    have : m.ts = m0.ts := by rw [← hval]
    omega
  · intro uid now msgs h
    unfold fetchUserSlackMessages conversationsHistory
    rw [List.take_of_length_le h]

theorem claim_C4_amended_witness :
    (commitInTwoDayWindow (10 * 86400 + 36000) (9 * 86400 + 86340) = true ↔
      ((9 * 86400 + 86340 : Int) / 86400 = (10 * 86400 + 36000 : Int) / 86400 ∨
        (9 * 86400 + 86340 : Int) / 86400 =
          (10 * 86400 + 36000 : Int) / 86400 - 1)) ∧
    commitInTwoDayWindow (5 * 86400 + 36000) (5 * 86400 - 60) = true ∧
    commitInTwoDayWindow (5 * 86400 + 36000) (5 * 86400 + 60) = true ∧
    commitInTwoDayWindow (5 * 86400 + 36000) (5 * 86400 - 86460) = false ∧
    slackOldest (10 * 86400 + 36000) < (10 * 86400 + 35999 : Int) ∧
    fetchUserSlackMessages "U1"
      (.ok (some (conversationsHistory
        [{ text := some "hello", user := some "U1",
           ts := 10 * 86400 + 35999, subtype := none }]
        (slackOldest (10 * 86400 + 36000))))) =
      ((([{ text := some "hello", user := some "U1",
            ts := 10 * 86400 + 35999,
            subtype := none }] : List SlackMsg).filter
          (fun m => slackOldest (10 * 86400 + 36000) < m.ts)).filter
        (fun m => m.subtype == none && m.user == some "U1")).map
        (fun m => { text := jsOrStr m.text ""
                    user := jsOrStr m.user "Unknown User"
                    ts := m.ts }) := by
  refine ⟨claim_C4_amended.1 _ _, claim_C4_amended.2.1 5,
    claim_C4_amended.2.2.1 5, claim_C4_amended.2.2.2.1 5, ?_, ?_⟩
  · exact claim_C4_amended.2.2.2.2.2.2.2.1 "U1" (10 * 86400 + 36000)
      [{ text := some "hello", user := some "U1", ts := 10 * 86400 + 35999,
         subtype := none }]
      { text := "hello", user := "U1", ts := 10 * 86400 + 35999 }
      (by decide)
  · exact claim_C4_amended.2.2.2.2.2.2.2.2 "U1" (10 * 86400 + 36000)
      [{ text := some "hello", user := some "U1", ts := 10 * 86400 + 35999,
         subtype := none }] (by decide)

/-- Claim C7 is false as stated for the frontend GitHub adapter it cites:
`GitHubService.getCommits` rethrows a failed request to its caller instead
of returning an empty sequence. -/
theorem claim_C7_counterexample :
    gitHubServiceGetCommits (.error ()) = .error () ∧
    ∀ l : List RawCommit, gitHubServiceGetCommits (.error ()) ≠ .ok l := by
  exact ⟨rfl, fun l h => Except.noConfusion h⟩

/-- Claim C7 (amended): the backend collectors degrade instead of
throwing — a failing per-repository commit fetch inside
`fetchUserGitHubCommits` is skipped so only the succeeding repositories
contribute, a failing `GET /user` or `GET /user/repos` yields `[]`, and the
Slack and calendar collectors yield `[]` on a failed call — while the
frontend `GitHubService.getCommits` propagates its failure to the caller. -/
theorem claim_C7_amended :
    (∀ (getCommits : RepoRef → Except Unit (List RawCommit))
        (userLogin : String) (now : Int) (repos : List RepoRef),
      collectAllCommits getCommits userLogin now repos =
        collectAllCommits getCommits userLogin now
          (repos.filter (fun r => (getCommits r).isOk))) ∧
    (∀ (getCommits : RepoRef → Except Unit (List RawCommit))
        (userLogin : String) (now : Int) (rA rB : RepoRef)
        (cs : List RawCommit),
      getCommits rA = .error () → getCommits rB = .ok cs →
      collectAllCommits getCommits userLogin now [rA, rB] =
        repoCommitsOut userLogin now rB cs) ∧
    (∀ (conn : Option Connection) getRepos getCommits (now : Int) e,
      fetchUserGitHubCommits conn (.error e) getRepos getCommits now = []) ∧
    (∀ (conn : Option Connection) getUser getCommits (now : Int) e,
      fetchUserGitHubCommits conn getUser (.error e) getCommits now = []) ∧
    (∀ (uid : String) e, fetchUserSlackMessages uid (.error e) = []) ∧
    (∀ (conn : Option Connection) e,
      fetchUserCalendarEvents conn (.error e) = []) ∧
    (∀ (req : Except Unit (List RawCommit)) e,
      req = .error e → gitHubServiceGetCommits req = .error e) := by
  refine ⟨?_, ?_, ?_, ?_, ?_, ?_, ?_⟩
  · intro getCommits userLogin now repos
    induction repos with
    | nil => rfl
    | cons r rest ih =>
      cases hr : getCommits r with
      | error e =>
        simp only [collectAllCommits, hr, List.filter_cons, Except.isOk,
          Except.toBool]
        exact ih
      | ok cs =>
        simp only [collectAllCommits, hr, List.filter_cons, Except.isOk,
          Except.toBool]
        rw [ih]
        rfl
  · intro getCommits userLogin now rA rB cs hA hB
    simp [collectAllCommits, hA, hB]
  · intro conn getRepos getCommits now e
    cases conn with
    | none => rfl
    | some c =>
      cases hc : c.github_token with
      | none => simp [fetchUserGitHubCommits, hc]
      | some t => simp [fetchUserGitHubCommits, hc]
  · intro conn getUser getCommits now e
    cases conn with
    | none => rfl
    | some c =>
      cases hc : c.github_token with
      | none => simp [fetchUserGitHubCommits, hc]
      | some t =>
        cases getUser with
        | error e2 => simp [fetchUserGitHubCommits, hc]
        | ok login => simp [fetchUserGitHubCommits, hc]
  · intro uid e; rfl
  · intro conn e
    cases conn with
    | none => rfl
    | some c =>
      cases hc : c.google_tokens with
      | none => simp [fetchUserCalendarEvents, hc]
      | some t => simp [fetchUserCalendarEvents, hc]
  · intro req e h
    subst h
    rfl

theorem claim_C7_amended_witness :
    collectAllCommits
      (fun r => if r.name = "repoA" then .error () else
        .ok [{ authorLogin := some "dev", committerLogin := some "dev",
               authorDate := 1000, message := "fix tests" }])
      "dev" 1000 [{ owner := "o", name := "repoA" },
        { owner := "o", name := "repoB" }] =
      repoCommitsOut "dev" 1000 { owner := "o", name := "repoB" }
        [{ authorLogin := some "dev", committerLogin := some "dev",
           authorDate := 1000, message := "fix tests" }] ∧
    gitHubServiceGetCommits (Except.error ()) = Except.error () := by
  refine ⟨claim_C7_amended.2.1 _ "dev" 1000 _ _ _ rfl ?_, ?_⟩
  · simp
  · exact claim_C7_amended.2.2.2.2.2.2 (Except.error ()) () rfl

/-- Claim C2 is contradicted by the code: when `saveSummaryToSupabase`
finds an existing same-day row that a user submitted
(`is_ai_generated = false`), its update branch overwrites
`progress`/`blockers`/`plan` with the AI draft (and nulls `notes`) without
checking the existing row's flag, erasing the user's content. -/
theorem claim_C2_ai_overwrites_user_row :
    saveSummaryToSupabase
      ⟨[⟨0, "U1", "T1", 3600, "shipped the login page", "none", "polish UI",
        some "demo at 5pm", false⟩], 1⟩
      7200 "U1" "T1"
      (Js.obj [("progress", Js.str "AI progress"),
        ("blockers", Js.str "AI blockers"), ("plan", Js.str "AI plan")]) =
      ⟨[⟨0, "U1", "T1", 3600, "AI progress", "AI blockers", "AI plan",
        none, true⟩], 1⟩ := by
  decide

/-- Claim C3 is contradicted by the code: the AI-draft update branch does
not leave `notes` unchanged. The existence query selects only the `id`
column, so `existing.notes` is `undefined` and `existing.notes || null`
writes `null`, erasing a non-null `notes` value — contrary to the code's
own comment "Keep notes if they exist". -/
theorem claim_C3_notes_nulled_on_regeneration :
    saveSummaryToSupabase
      ⟨[⟨4, "U2", "T2", 40000, "first draft", "first blockers", "first plan",
        some "remember the retro", true⟩], 5⟩
      50000 "U2" "T2"
      (Js.obj [("progress", Js.str "second draft"),
        ("blockers", Js.str "second blockers"),
        ("plan", Js.str "second plan")]) =
      ⟨[⟨4, "U2", "T2", 40000, "second draft", "second blockers",
        "second plan", none, true⟩], 5⟩ := by
  decide

/-- Claim C1 fails in the final second of the UTC day: the lookup window
`[day 00:00:00Z, day 23:59:59Z)` misses a row saved at 23:59:59, so a
second AI-draft save on the same UTC day finds nothing and inserts a
second row for the same `(user_id, team_id, day)` key. -/
theorem claim_C1_counterexample :
    utcDay 86399 = 0 ∧
    dayRowCount "U1" "T1" 0
      (applyRecapOps "U1" "T1" ⟨[], 0⟩
        [.aiSave 86399 (Js.obj [("progress", Js.str "draft")]),
         .aiSave 86399 (Js.obj [("progress", Js.str "draft")])]).rows = 2 := by
  exact ⟨rfl, by decide⟩

theorem countP_congr_mem {α : Type} {p q : α → Bool} :
    ∀ {l : List α}, (∀ a ∈ l, p a = q a) → l.countP p = l.countP q := by
  intro l h
  induction l with
  | nil => rfl
  | cons a as ih =>
    rw [List.countP_cons, List.countP_cons, h a (List.mem_cons_self a as),
      ih (fun x hx => h x (List.mem_cons_of_mem a hx))]

theorem windowMatch_imp_keyMatch {uid tid : String} {day : Nat} {r : Recap}
    (h : recapKeyWindowMatch uid tid day r = true) :
    keyMatchDay uid tid day r = true := by
  rcases recapKeyWindowMatch_iff.mp h with ⟨h1, h2, h3, h4⟩
  refine keyMatchDay_iff.mpr ⟨h1, h2, ?_⟩
  unfold utcDay
  omega

theorem match_congr_of_good {uid tid : String} {day : Nat}
    {rows : List Recap}
    (hg : ∀ r ∈ rows, keyMatchDay uid tid day r = true →
      inTodayWindow day r.submitted_at = true) :
    ∀ r ∈ rows, recapKeyWindowMatch uid tid day r = keyMatchDay uid tid day r := by
  intro r hr
  cases hk : keyMatchDay uid tid day r with
  | true =>
    rcases keyMatchDay_iff.mp hk with ⟨h1, h2, h3⟩
    have hw := hg r hr hk
    simp [recapKeyWindowMatch, h1, h2, hw]
  | false =>
    cases hwm : recapKeyWindowMatch uid tid day r with
    | false => rfl
    | true =>
      have hkm := windowMatch_imp_keyMatch hwm
      rw [hk] at hkm
      exact absurd hkm (by simp)

theorem findExistingSingle_of_one {uid tid : String} {day : Nat}
    {rows : List Recap}
    (h : rows.countP (recapKeyWindowMatch uid tid day) = 1) :
    ∃ r, findExistingSingle uid tid day rows = some r ∧ r ∈ rows ∧
      recapKeyWindowMatch uid tid day r = true := by
  rw [List.countP_eq_length_filter] at h
  obtain ⟨r, hr⟩ := List.length_eq_one.mp h
  have hm : r ∈ rows.filter (recapKeyWindowMatch uid tid day) := by
    rw [hr]; exact List.mem_cons_self _ _
  exact ⟨r, by unfold findExistingSingle; rw [hr],
    (List.mem_filter.mp hm).1, (List.mem_filter.mp hm).2⟩

theorem findExistingSingle_of_zero {uid tid : String} {day : Nat}
    {rows : List Recap}
    (h : rows.countP (recapKeyWindowMatch uid tid day) = 0) :
    findExistingSingle uid tid day rows = none := by
  rw [List.countP_eq_length_filter] at h
  have he : rows.filter (recapKeyWindowMatch uid tid day) = [] :=
    List.length_eq_zero.mp h
  unfold findExistingSingle
  rw [he]

theorem loadSummary_of_one {uid tid : String} {day : Nat} {rows : List Recap}
    (h : rows.countP (recapKeyWindowMatch uid tid day) = 1) :
    ∃ r, loadSummaryFromSupabase uid tid day rows = some r ∧ r ∈ rows ∧
      recapKeyWindowMatch uid tid day r = true := by
  rw [List.countP_eq_length_filter] at h
  obtain ⟨r, hr⟩ := List.length_eq_one.mp h
  have hm : r ∈ rows.filter (recapKeyWindowMatch uid tid day) := by
    rw [hr]; exact List.mem_cons_self _ _
  exact ⟨r, by unfold loadSummaryFromSupabase; rw [hr]; rfl,
    (List.mem_filter.mp hm).1, (List.mem_filter.mp hm).2⟩

theorem loadSummary_of_zero {uid tid : String} {day : Nat} {rows : List Recap}
    (h : rows.countP (recapKeyWindowMatch uid tid day) = 0) :
    loadSummaryFromSupabase uid tid day rows = none := by
  rw [List.countP_eq_length_filter] at h
  have he : rows.filter (recapKeyWindowMatch uid tid day) = [] :=
    List.length_eq_zero.mp h
  unfold loadSummaryFromSupabase
  rw [he]
  rfl

theorem mem_unique_id {rows : List Recap}
    (hp : rows.Pairwise (fun a b => a.id ≠ b.id)) {r0 r : Recap}
    (h0 : r0 ∈ rows) (h1 : r ∈ rows) (hid : r.id = r0.id) : r = r0 := by
  induction rows with
  | nil => cases h0
  | cons a as ih =>
    rw [List.pairwise_cons] at hp
    rcases List.mem_cons.mp h0 with rfl | h0as
    · rcases List.mem_cons.mp h1 with rfl | h1as
      · rfl
      · exact absurd hid.symm (hp.1 r h1as)
    · rcases List.mem_cons.mp h1 with rfl | h1as
      · exact absurd hid (hp.1 r0 h0as)
      · exact ih hp.2 h0as h1as

theorem aiUpdate_key (uid tid : String) (day : Nat) (ns : Summary)
    (eid : Nat) (r : Recap) :
    keyMatchDay uid tid day
      (if r.id == eid then
        { r with progress := ns.progress, blockers := ns.blockers,
                 plan := ns.plan, notes := none, is_ai_generated := true }
      else r) = keyMatchDay uid tid day r := by
  split <;> rfl

theorem aiUpdate_ts (ns : Summary) (eid : Nat) (r : Recap) :
    (if r.id == eid then
      { r with progress := ns.progress, blockers := ns.blockers,
               plan := ns.plan, notes := none, is_ai_generated := true }
    else r).submitted_at = r.submitted_at := by
  split <;> rfl

theorem aiUpdate_id (ns : Summary) (eid : Nat) (r : Recap) :
    (if r.id == eid then
      { r with progress := ns.progress, blockers := ns.blockers,
               plan := ns.plan, notes := none, is_ai_generated := true }
    else r).id = r.id := by
  split <;> rfl

theorem submitUpdate_id (uid tid : String) (submittedAt : Nat)
    (form : RecapForm) (rid : Nat) (r : Recap) :
    (if r.id == rid then
      { r with user_id := uid, team_id := tid, submitted_at := submittedAt,
               progress := form.progress, blockers := form.blockers,
               plan := form.plan, notes := form.notes,
               is_ai_generated := false }
    else r).id = r.id := by
  split <;> rfl

theorem submitUpdate_key {uid tid : String} {day submittedAt : Nat}
    {form : RecapForm} {rid : Nat} {r : Recap}
    (hday : utcDay submittedAt = day)
    (hkr : r.id = rid → keyMatchDay uid tid day r = true) :
    keyMatchDay uid tid day
      (if r.id == rid then
        { r with user_id := uid, team_id := tid, submitted_at := submittedAt,
                 progress := form.progress, blockers := form.blockers,
                 plan := form.plan, notes := form.notes,
                 is_ai_generated := false }
      else r) = keyMatchDay uid tid day r := by
  by_cases h : r.id = rid
  · rw [if_pos (by simpa using h), hkr h]
    simp [keyMatchDay, hday]
  · rw [if_neg (by simpa using h)]

theorem saveSummary_step {uid tid : String} {day now : Nat} {summary : Js}
    {st : Store} (hg : GoodState uid tid day st)
    (hcnt : dayRowCount uid tid day st.rows ≤ 1)
    (hday : utcDay now = day) (hearly : now % 86400 < 86399) :
    GoodState uid tid day (saveSummaryToSupabase st now uid tid summary) ∧
      dayRowCount uid tid day
        (saveSummaryToSupabase st now uid tid summary).rows = 1 := by
  obtain ⟨⟨hpair, hfresh⟩, hwinOk⟩ := hg
  have hwc : st.rows.countP (recapKeyWindowMatch uid tid day) =
      dayRowCount uid tid day st.rows :=
    countP_congr_mem (match_congr_of_good hwinOk)
  rcases Nat.le_one_iff_eq_zero_or_eq_one.mp hcnt with h0 | h1
  · have hnone := findExistingSingle_of_zero (hwc.trans h0)
    simp only [saveSummaryToSupabase, hday, hnone]
    constructor
    · refine ⟨⟨?_, ?_⟩, ?_⟩
      · rw [List.pairwise_append]
        refine ⟨hpair, List.pairwise_singleton _ _, ?_⟩
        intro a ha b hb
        rw [List.mem_singleton.mp hb]
        exact Nat.ne_of_lt (hfresh a ha)
      · intro r hr
        rcases List.mem_append.mp hr with h | h
        · exact Nat.lt_succ_of_lt (hfresh r h)
        · rw [List.mem_singleton.mp h]
          exact Nat.lt_succ_self _
      · intro r hr hk
        rcases List.mem_append.mp hr with h | h
        · exact hwinOk r h hk
        · rw [List.mem_singleton.mp h]
          exact day_early_imp_window hday hearly
    · unfold dayRowCount at h0 ⊢
      rw [List.countP_append, h0]
      simp [List.countP_cons, keyMatchDay, hday]
  · obtain ⟨ex, hfind, hexmem, hexwin⟩ :=
      findExistingSingle_of_one (hwc.trans h1)
    simp only [saveSummaryToSupabase, hday, hfind]
    constructor
    · refine ⟨⟨?_, ?_⟩, ?_⟩
      · rw [List.pairwise_map]
        refine List.Pairwise.imp ?_ hpair
        intro a b hab
        simpa only [aiUpdate_id] using hab
      · intro r' hr'
        rcases List.mem_map.mp hr' with ⟨r, hr, rfl⟩
        simp only [aiUpdate_id]
        exact hfresh r hr
      · intro r' hr' hk'
        rcases List.mem_map.mp hr' with ⟨r, hr, rfl⟩
        simp only [aiUpdate_key] at hk'
        simp only [aiUpdate_ts]
        exact hwinOk r hr hk'
    · unfold dayRowCount
      rw [List.countP_map]
      refine Eq.trans (countP_congr_mem ?_) h1
      intro r hr
      exact aiUpdate_key uid tid day (normalizeSummary summary) ex.id r

theorem recapSubmit_step {uid tid : String} {day now : Nat}
    {form : RecapForm} {st : Store} (hg : GoodState uid tid day st)
    (hcnt : dayRowCount uid tid day st.rows ≤ 1)
    (hday : utcDay now = day) (hearly : now % 86400 < 86399) :
    GoodState uid tid day
      (recapSubmit st now uid tid
        ((loadSummaryFromSupabase uid tid (utcDay now) st.rows).map (·.id))
        form) ∧
      dayRowCount uid tid day
        (recapSubmit st now uid tid
          ((loadSummaryFromSupabase uid tid (utcDay now) st.rows).map (·.id))
          form).rows = 1 := by
  obtain ⟨⟨hpair, hfresh⟩, hwinOk⟩ := hg
  have hwc : st.rows.countP (recapKeyWindowMatch uid tid day) =
      dayRowCount uid tid day st.rows :=
    countP_congr_mem (match_congr_of_good hwinOk)
  rw [hday]
  rcases Nat.le_one_iff_eq_zero_or_eq_one.mp hcnt with h0 | h1
  · rw [loadSummary_of_zero (hwc.trans h0)]
    simp only [Option.map_none', recapSubmit]
    constructor
    · refine ⟨⟨?_, ?_⟩, ?_⟩
      · rw [List.pairwise_append]
        refine ⟨hpair, List.pairwise_singleton _ _, ?_⟩
        intro a ha b hb
        rw [List.mem_singleton.mp hb]
        exact Nat.ne_of_lt (hfresh a ha)
      · intro r hr
        rcases List.mem_append.mp hr with h | h
        · exact Nat.lt_succ_of_lt (hfresh r h)
        · rw [List.mem_singleton.mp h]
          exact Nat.lt_succ_self _
      · intro r hr hk
        rcases List.mem_append.mp hr with h | h
        · exact hwinOk r h hk
        · rw [List.mem_singleton.mp h]
          exact day_early_imp_window hday hearly
    · unfold dayRowCount at h0 ⊢
      rw [List.countP_append, h0]
      simp [List.countP_cons, keyMatchDay, hday]
  · obtain ⟨r0, hload, h0mem, h0win⟩ := loadSummary_of_one (hwc.trans h1)
    rw [hload]
    simp only [Option.map_some', recapSubmit]
    have hkr : ∀ r ∈ st.rows, r.id = r0.id →
        keyMatchDay uid tid day r = true := by
      intro r hr hid
      rw [mem_unique_id hpair h0mem hr hid]
      exact windowMatch_imp_keyMatch h0win
    constructor
    · refine ⟨⟨?_, ?_⟩, ?_⟩
      · rw [List.pairwise_map]
        refine List.Pairwise.imp ?_ hpair
        intro a b hab
        simpa only [submitUpdate_id] using hab
      · intro r' hr'
        rcases List.mem_map.mp hr' with ⟨r, hr, rfl⟩
        simp only [submitUpdate_id]
        exact hfresh r hr
      · intro r' hr' hk'
        rcases List.mem_map.mp hr' with ⟨r, hr, rfl⟩
        by_cases hid : r.id = r0.id
        · dsimp only at hk' ⊢
          rw [if_pos (by simpa using hid)] at hk' ⊢
          exact day_early_imp_window hday hearly
        · dsimp only at hk' ⊢
          rw [if_neg (by simpa using hid)] at hk' ⊢
          exact hwinOk r hr hk'
    · unfold dayRowCount
      rw [List.countP_map]
      refine Eq.trans (countP_congr_mem ?_) h1
      intro r hr
      exact submitUpdate_key hday (hkr r hr)

theorem applyRecapOp_step {uid tid : String} {day : Nat} {st : Store}
    {op : RecapOp} (hg : GoodState uid tid day st)
    (hcnt : dayRowCount uid tid day st.rows ≤ 1)
    (hop : opInDayEarly day op) :
    GoodState uid tid day (applyRecapOp uid tid st op) ∧
      dayRowCount uid tid day (applyRecapOp uid tid st op).rows = 1 := by
  cases op with
  | aiSave now summary => exact saveSummary_step hg hcnt hop.1 hop.2
  | userSubmit now form => exact recapSubmit_step hg hcnt hop.1 hop.2

theorem applyRecapOps_invariant {uid tid : String} {day : Nat} :
    ∀ (ops : List RecapOp) (st : Store), GoodState uid tid day st →
      dayRowCount uid tid day st.rows ≤ 1 →
      (∀ op ∈ ops, opInDayEarly day op) →
      GoodState uid tid day (applyRecapOps uid tid st ops) ∧
        dayRowCount uid tid day (applyRecapOps uid tid st ops).rows ≤ 1 ∧
        (ops ≠ [] →
          dayRowCount uid tid day (applyRecapOps uid tid st ops).rows = 1) := by
  intro ops
  induction ops with
  | nil =>
    intro st hg hc _
    exact ⟨hg, hc, fun h => absurd rfl h⟩
  | cons op rest ih =>
    intro st hg hc hall
    have hstep := applyRecapOp_step hg hc (hall op (List.mem_cons_self _ _))
    have hrest := ih (applyRecapOp uid tid st op) hstep.1
      (le_of_eq hstep.2)
      (fun o ho => hall o (List.mem_cons_of_mem _ ho))
    refine ⟨hrest.1, hrest.2.1, fun _ => ?_⟩
    cases rest with
    | nil => exact hstep.2
    | cons b bs => exact hrest.2.2 (by simp)

/-- Claim C1 (amended): for every `(user_id, team_id, UTC calendar day)`,
after any non-empty sequence of AI-draft saves and user modal submissions
on that day — each submission modelled atomically, its `recap_id` metadata
obtained from the store at submission time, and every write happening
strictly before 23:59:59 UTC (the lookup window excludes the day's final
second) — exactly one row exists in `daily_recaps` for that key: later
operations update the existing row and never insert a second one. -/
theorem claim_C1_amended :
    ∀ (uid tid : String) (day : Nat) (st : Store) (ops : List RecapOp),
    GoodState uid tid day st →
    dayRowCount uid tid day st.rows = 0 →
    ops ≠ [] →
    (∀ op ∈ ops, opInDayEarly day op) →
    dayRowCount uid tid day (applyRecapOps uid tid st ops).rows = 1 := by
  intro uid tid day st ops hg h0 hne hall
  exact (applyRecapOps_invariant ops st hg (by omega) hall).2.2 hne

theorem claim_C1_amended_witness :
    dayRowCount "U1" "T1" 0
      (applyRecapOps "U1" "T1" ⟨[], 0⟩
        [.aiSave 3600 (Js.obj [("progress", Js.str "draft one")]),
         .userSubmit 7200 ⟨"my progress", "my blockers", "my plan",
           some "my notes"⟩,
         .aiSave 10000 (Js.obj [("progress", Js.str "draft two")])]).rows
      = 1 := by
  refine claim_C1_amended "U1" "T1" 0 ⟨[], 0⟩ _ ?_ rfl (by simp) ?_
  · exact ⟨⟨List.Pairwise.nil, by simp⟩, by simp⟩
  · intro op hop
    simp only [List.mem_cons, List.not_mem_nil, or_false] at hop
    rcases hop with rfl | rfl | rfl
    · exact ⟨by decide, by decide⟩
    · exact ⟨by decide, by decide⟩
    · exact ⟨by decide, by decide⟩
